import Mathlib

/-!
Verification of the W-Chain info bot's alert-watcher core (change detection,
cursor tracking, bounded dedup cache, subscription registry, state-file
persistence) against the repository sources under `app/services` and
`app/clients`.

Shallow embedding conventions:
* Python `Optional[str]` fields become `Option String`; Python truthiness of a
  string (`if not s` treats both `None` and `""` as false) is made explicit.
* On-chain amounts: the services parse the wei value with `Decimal` and divide
  by `10^18`; this exact rational arithmetic is modelled with `ℚ`.  The raw
  `value` field of a feed item (an arbitrary JSON value in Python) is modelled
  by `RawValue`: absent/empty/"NaN", a non-numeric string (Decimal parse
  error), or an integer number of wei.
* The Telegram delivery call either succeeds or raises; the exception class is
  modelled by `SendResult` (ok / permanent error such as blocked-kicked /
  transient error).  Message templating is cosmetic and out of the spec's
  scope, so a delivered alert is recorded as the event itself.
* Python `set` contents are modelled as duplicate-free lists; where the
  *iteration order* of a set is observable (eviction in `_mark_processed`),
  the order is an explicit parameter, since CPython's set order is
  hash-dependent and not insertion order.
-/

namespace WChainBot

/-- Python truthiness of an optional string: `None` and `""` are falsy. -/
def truthyOpt : Option String → Bool
  | none => false
  | some s => s != ""

/-- Python `str(x)` applied to an optional string (`str(None) = "None"`). -/
def pythonStr : Option String → String
  | none => "None"
  | some s => s

/-- Raw JSON `value` field of a feed item, as consumed by `_parse_wco_amount`:
absent/empty/"NaN", a string `Decimal` cannot parse, or an integer wei value. -/
inductive RawValue
  | missing
  | notNum
  | num (wei : ℤ)
deriving DecidableEq

/-- `_parse_wco_amount` (identical in buyback_alerts.py, wco_whale_alert.py and
exchange_flow_alerts.py): returns `None` for absent/unparseable values,
`Decimal(0)` for non-positive wei, else `wei / 10^18`. -/
def parseWcoAmount : RawValue → Option ℚ
  | .missing => none
  | .notNum => none
  | .num wei => if wei ≤ 0 then some 0 else some ((wei : ℚ) / (10 ^ 18 : ℚ))

/-- The `if last_seen and key == last_seen` break condition of every
extraction loop: true only when the cursor is set, non-empty (Python
truthiness) and equal to the item's identifier. -/
def lastSeenHit : Option String → String → Bool
  | none, _ => false
  | some ls, k => ls != "" && k == ls

/-- The shared newest-first scan of `_extract_new_events` /
`_extract_new_items` / `_extract_new_whale_buys`: walk the feed, skip items
whose identifier is absent (`if not key: continue`), stop at the cursor
(`if last_seen and key == last_seen: break`), collect everything else.
`keyFn` is the watcher-specific identifier function, absorbing the truthiness
check on the identifier. -/
def collectNew (keyFn : α → Option String) (lastSeen : Option String) :
    List α → List α
  | [] => []
  | it :: rest =>
    match keyFn it with
    | none => collectNew keyFn lastSeen rest
    | some k =>
      if lastSeenHit lastSeen k then []
      else it :: collectNew keyFn lastSeen rest

theorem collectNew_nil (keyFn : α → Option String) (ls : Option String) :
    collectNew keyFn ls [] = [] := rfl

theorem collectNew_cons (keyFn : α → Option String) (ls : Option String)
    (it : α) (rest : List α) :
    collectNew keyFn ls (it :: rest) =
      match keyFn it with
      | none => collectNew keyFn ls rest
      | some k =>
        if lastSeenHit ls k then []
        else it :: collectNew keyFn ls rest := rfl

/-- Items whose identifier is absent are skipped without terminating the
scan: a keyless prefix does not change the collected result. -/
theorem collectNew_append_noId (keyFn : α → Option String) (ls : Option String)
    (noise rest : List α) (h : ∀ it ∈ noise, keyFn it = none) :
    collectNew keyFn ls (noise ++ rest) = collectNew keyFn ls rest := by
  induction noise with
  | nil => rfl
  | cons x xs ih =>
    have hx : keyFn x = none := h x (by simp)
    have hxs : ∀ it ∈ xs, keyFn it = none := fun it hit => h it (by simp [hit])
    simp [collectNew_cons, hx, ih hxs]

/-- Every collected item has an identifier. -/
theorem collectNew_mem_key (keyFn : α → Option String) (ls : Option String)
    (items : List α) :
    ∀ x ∈ collectNew keyFn ls items, ∃ k, keyFn x = some k := by
  induction items with
  | nil => simp [collectNew_nil]
  | cons it rest ih =>
    intro x hx
    rw [collectNew_cons] at hx
    cases hk : keyFn it with
    | none =>
      rw [hk] at hx
      exact ih x hx
    | some k =>
      rw [hk] at hx
      by_cases hhit : lastSeenHit ls k = true
      · simp [hhit] at hx
      · simp only [Bool.not_eq_true] at hhit
        simp only [hhit, Bool.false_eq_true, if_false, List.mem_cons] at hx
        rcases hx with rfl | hx
        · exact ⟨k, hk⟩
        · exact ih x hx

/-! Exchange flow alerts (`app/services/exchange_flow_alerts.py`). -/

/-- A transaction record as consumed by
`ExchangeFlowAlertService._extract_new_items`: only the `"hash"` field is
inspected there; `tag` stands for the remaining fields of the JSON record so
that distinct items are distinguishable. -/
structure ExItem where
  hash : Option String
  tag : ℕ
deriving DecidableEq

/-- Identifier of an exchange-flow feed item: the `"hash"` field, with the
`if not tx_hash: continue` truthiness check (absent or empty means no id). -/
def exKey (it : ExItem) : Option String :=
  match it.hash with
  | none => none
  | some h => if h = "" then none else some h

theorem exKey_some_hash {it : ExItem} {k : String} (h : exKey it = some k) :
    it.hash = some k := by
  obtain ⟨hash, tag⟩ := it
  cases hash with
  | none => simp [exKey] at h
  | some s =>
    simp only [exKey] at h
    by_cases hs : s = ""
    · rw [if_pos hs] at h; cases h
    · rw [if_neg hs] at h
      exact h

theorem exKey_ne_empty {it : ExItem} {k : String} (h : exKey it = some k) :
    k ≠ "" := by
  obtain ⟨hash, tag⟩ := it
  cases hash with
  | none => simp [exKey] at h
  | some s =>
    simp only [exKey] at h
    by_cases hs : s = ""
    · rw [if_pos hs] at h; cases h
    · rw [if_neg hs] at h
      injection h with h
      rw [← h]
      exact hs

/-- `ExchangeFlowAlertService._extract_new_items`: returns
`(items_oldest_first, newest_hash)`.  The newest hash is taken from the first
collected item (`str(new_items[0].get("hash"))`) before the list is reversed
to oldest-first order. -/
def extractNewItems (payload : Option (List ExItem)) (lastSeen : Option String) :
    List ExItem × Option String :=
  let items := payload.getD []
  match collectNew exKey lastSeen items with
  | [] => ([], none)
  | it :: rest => ((it :: rest).reverse, some (pythonStr it.hash))

/-- Claim C2: for a newest-first feed of shape
`noise ++ [new3] ++ noise ++ [new2] ++ noise ++ [new1] ++ noise ++ [C] ++ old`
where the `new*` and `C` items carry identifiers, the noise items lack
identifiers (and are skipped without terminating the scan), and the cursor
equals `C`'s identifier, detection returns exactly `[new1, new2, new3]`
(oldest-first) with the new cursor equal to `new3`'s identifier. -/
theorem claim_C2_chronological_emission
    (noise3 noise2 noise1 noise0 old : List ExItem)
    (n3 n2 n1 c : ExItem) (h3 h2 h1 hc : String)
    (hk3 : exKey n3 = some h3) (hk2 : exKey n2 = some h2)
    (hk1 : exKey n1 = some h1) (hkc : exKey c = some hc)
    (hne3 : h3 ≠ hc) (hne2 : h2 ≠ hc) (hne1 : h1 ≠ hc)
    (hn3 : ∀ it ∈ noise3, exKey it = none)
    (hn2 : ∀ it ∈ noise2, exKey it = none)
    (hn1 : ∀ it ∈ noise1, exKey it = none)
    (hn0 : ∀ it ∈ noise0, exKey it = none) :
    extractNewItems
        (some (noise3 ++ n3 :: (noise2 ++ n2 :: (noise1 ++ n1 :: (noise0 ++ c :: old)))))
        (some hc) =
      ([n1, n2, n3], some h3) := by
  have hcne : hc ≠ "" := exKey_ne_empty hkc
  have hit3 : ¬ lastSeenHit (some hc) h3 = true := by
    simp [lastSeenHit, hne3]
  have hit2 : ¬ lastSeenHit (some hc) h2 = true := by
    simp [lastSeenHit, hne2]
  have hit1 : ¬ lastSeenHit (some hc) h1 = true := by
    simp [lastSeenHit, hne1]
  have hitc : lastSeenHit (some hc) hc = true := by
    simp [lastSeenHit, hcne]
  have hcollect :
      collectNew exKey (some hc)
          (noise3 ++ n3 :: (noise2 ++ n2 :: (noise1 ++ n1 :: (noise0 ++ c :: old)))) =
        [n3, n2, n1] := by
    rw [collectNew_append_noId exKey _ _ _ hn3, collectNew_cons]
    simp only [hk3]
    rw [if_neg hit3]
    rw [collectNew_append_noId exKey _ _ _ hn2, collectNew_cons]
    simp only [hk2]
    rw [if_neg hit2]
    rw [collectNew_append_noId exKey _ _ _ hn1, collectNew_cons]
    simp only [hk1]
    rw [if_neg hit1]
    rw [collectNew_append_noId exKey _ _ _ hn0, collectNew_cons]
    simp only [hkc]
    rw [if_pos hitc]
  unfold extractNewItems
  simp only [Option.getD_some, hcollect, List.reverse_cons, List.reverse_nil]
  rw [exKey_some_hash hk3]
  rfl

/-- Concrete instance discharging the hypotheses of
`claim_C2_chronological_emission`: feed
`[noId, n3, n3noise, n2, n1, C, old]` with cursor `C`. -/
theorem claim_C2_witness :
    (exKey ⟨some "h3", 3⟩ = some "h3" ∧ exKey ⟨some "hc", 0⟩ = some "hc" ∧
      ("h3" : String) ≠ "hc") ∧
    extractNewItems
        (some ([⟨none, 9⟩] ++ (⟨some "h3", 3⟩ : ExItem) ::
          ([⟨some "", 8⟩] ++ (⟨some "h2", 2⟩ : ExItem) ::
            ([] ++ (⟨some "h1", 1⟩ : ExItem) ::
              ([] ++ (⟨some "hc", 0⟩ : ExItem) :: [⟨some "h0", 7⟩]))))) (some "hc") =
      ([⟨some "h1", 1⟩, ⟨some "h2", 2⟩, ⟨some "h3", 3⟩], some "h3") :=
  ⟨⟨by decide, by decide, by decide⟩,
    claim_C2_chronological_emission [⟨none, 9⟩] [⟨some "", 8⟩] [] [] [⟨some "h0", 7⟩]
      ⟨some "h3", 3⟩ ⟨some "h2", 2⟩ ⟨some "h1", 1⟩ ⟨some "hc", 0⟩
      "h3" "h2" "h1" "hc"
      (by decide) (by decide) (by decide) (by decide)
      (by decide) (by decide) (by decide)
      (by decide) (by decide) (by decide) (by decide)⟩

/-- Claim C10: `_extract_new_items` always returns either `([], None)` or a
non-empty oldest-first list paired with a cursor equal to the `"hash"` field
of the last element of the returned list. -/
theorem claim_C10_extract_invariant (payload : Option (List ExItem))
    (lastSeen : Option String) :
    extractNewItems payload lastSeen = ([], none) ∨
    ∃ l h last, extractNewItems payload lastSeen = (l, some h) ∧ l ≠ [] ∧
      l.getLast? = some last ∧ last.hash = some h := by
  cases hcol : collectNew exKey lastSeen (payload.getD []) with
  | nil =>
    left
    unfold extractNewItems
    simp only [hcol]
  | cons it rest =>
    right
    have hres : extractNewItems payload lastSeen =
        ((it :: rest).reverse, some (pythonStr it.hash)) := by
      unfold extractNewItems
      simp only [hcol]
    have hkey : ∃ k, exKey it = some k := by
      apply collectNew_mem_key exKey lastSeen (payload.getD [])
      rw [hcol]
      simp
    rcases hkey with ⟨k, hk⟩
    have hhash : it.hash = some k := exKey_some_hash hk
    refine ⟨(it :: rest).reverse, pythonStr it.hash, it, hres, by simp, ?_, ?_⟩
    · rw [List.getLast?_reverse]
      rfl
    · rw [hhash]
      rfl

/-! Buyback alerts (`app/services/buyback_alerts.py`). -/

/-- The `"from"` field of a transaction record: absent, present but not a
JSON object (`isinstance(from_obj, dict)` fails), or an object whose
`"hash"` field is modelled. -/
inductive FromField
  | missing
  | nonDict
  | dict (hash : Option String)
deriving DecidableEq

/-- A transaction record as consumed by
`BuybackAlertService._extract_new_events`: the `"hash"`, `"value"`, `"from"`,
`"timestamp"` and `"block_timestamp"` fields. -/
structure BItem where
  hash : Option String
  value : RawValue
  fromField : FromField
  timestamp : Option String
  blockTimestamp : Option String
deriving DecidableEq

/-- `BuybackEvent` dataclass. -/
structure BuybackEvent where
  tx_hash : String
  amount_wco : ℚ
  from_address : Option String
  timestamp : Option String
deriving DecidableEq

/-- Identifier of a buyback feed item: the `"hash"` field with the
`if not tx_hash: continue` truthiness check. -/
def buybackKey (it : BItem) : Option String :=
  match it.hash with
  | none => none
  | some h => if h = "" then none else some h

/-- The `from_address` computation: `from_obj = item.get("from") or {}`,
`if isinstance(from_obj, dict): from_addr = from_obj.get("hash")`, then
`str(from_addr) if from_addr else None` (empty string is falsy). -/
def buybackFromAddress (it : BItem) : Option String :=
  match it.fromField with
  | .dict (some h) => if h = "" then none else some h
  | _ => none

/-- The `timestamp` computation:
`timestamp = item.get("timestamp") or item.get("block_timestamp")`, then
`str(timestamp) if timestamp else None`. -/
def buybackTimestamp (it : BItem) : Option String :=
  let t := if truthyOpt it.timestamp then it.timestamp else it.blockTimestamp
  if truthyOpt t then t else none

/-- The event-building step of `_extract_new_events` (the second loop):
parse the amount, skip the item when it is `None` or `<= 0`, otherwise build
a `BuybackEvent` from the item's fields. -/
def itemToBuybackEvent (it : BItem) : Option BuybackEvent :=
  match parseWcoAmount it.value with
  | none => none
  | some amount =>
    if amount ≤ 0 then none
    else some
      { tx_hash := pythonStr it.hash
        amount_wco := amount
        from_address := buybackFromAddress it
        timestamp := buybackTimestamp it }

/-- `BuybackAlertService._extract_new_events`: collect new items ahead of the
cursor (newest-first), reverse to oldest-first, then map each item to an event
while skipping items with unparseable or non-positive amounts. -/
def extractNewEvents (payload : Option (List BItem)) (lastSeen : Option String) :
    List BuybackEvent :=
  let items := payload.getD []
  let newItems := collectNew buybackKey lastSeen items
  if newItems = [] then []
  else newItems.reverse.filterMap itemToBuybackEvent

/-- In-memory state of `BuybackAlertService`: the subscriber set (a Python
`set`, modelled as a duplicate-free list of its contents) and the persisted
cursor `_last_seen_tx_hash`. -/
structure BuybackState where
  subscribers : List ℤ
  lastSeen : Option String
deriving DecidableEq

/-- `BuybackAlertService.is_subscribed`. -/
def isSubscribed (st : BuybackState) (chatId : ℤ) : Bool :=
  decide (chatId ∈ st.subscribers)

/-- `BuybackAlertService.toggle_subscription`: remove the chat if present,
add it otherwise, returning the new membership. -/
def toggleSubscription (st : BuybackState) (chatId : ℤ) : Bool × BuybackState :=
  if chatId ∈ st.subscribers then
    (false, { st with subscribers := st.subscribers.filter (fun c => c != chatId) })
  else
    (true, { st with subscribers := chatId :: st.subscribers })

/-- Outcome of one `bot.send_message` call: success, a permanent Telegram
error (blocked / kicked / chat not found), or a transient error.  Both error
kinds land in the `except Exception` branch of `_broadcast`. -/
inductive SendResult
  | ok
  | permErr
  | transientErr
deriving DecidableEq

/-- `BuybackAlertService._broadcast`: attempt a send to every chat id in
order (a per-chat `try/except` keeps the loop going); every chat whose send
raised — regardless of the exception — is afterwards removed from the
subscriber set.  Returns the attempted sends and the updated subscriber
set. -/
def broadcastBuyback (outcome : ℤ → SendResult) (chatIds : List ℤ)
    (subs : List ℤ) : List (ℤ × SendResult) × List ℤ :=
  let attempts := chatIds.map (fun c => (c, outcome c))
  let failures := chatIds.filter (fun c => outcome c != SendResult.ok)
  (attempts, failures.foldl (fun s c => s.filter (fun x => x != c)) subs)

/-- Result of one `WChainClient.get_address_transactions` call: a parsed JSON
payload, an `httpx.HTTPError` (network error / timeout / non-2xx, which the
client catches and turns into `None`), or a 2xx body that is not valid JSON
(`response.json()` raises `json.JSONDecodeError`, which is *not* an
`httpx.HTTPError` and escapes the client). -/
inductive FetchOutcome
  | ok (items : List BItem)
  | httpErr
  | badJson
deriving DecidableEq

/-- `WChainClient.get_address_transactions`: `.error` models an exception
propagating out of the call, `.ok none` models the `return None` of the
`except httpx.HTTPError` branch. -/
def getAddressTransactions : FetchOutcome → Except Unit (Option (List BItem))
  | .ok items => .ok (some items)
  | .httpErr => .ok none
  | .badJson => .error ()

/-- Result of one `poll_and_broadcast` cycle: whether an exception escaped
the watcher, the final service state, and the events whose alert was
broadcast (message templating is cosmetic, so the delivered payload is the
event itself). -/
structure BuybackPollResult where
  raised : Bool
  state : BuybackState
  delivered : List BuybackEvent
deriving DecidableEq

/-- `BuybackAlertService.poll_and_broadcast`: gate on the feature flag and a
non-empty subscriber snapshot, fetch, extract new events, compute
`newest_hash = events[-1].tx_hash`, broadcast every event at or above the
configured minimum to the snapshot (pruning failed chats from the live set),
then advance the cursor to `newest_hash`. -/
def pollAndBroadcast (enabled : Bool) (minAmountWco : ℚ) (fetched : FetchOutcome)
    (outcome : ℤ → SendResult) (st : BuybackState) : BuybackPollResult :=
  if !enabled then ⟨false, st, []⟩
  else
    let subscribers := st.subscribers
    let lastSeen := st.lastSeen
    if subscribers = [] then ⟨false, st, []⟩
    else
      match getAddressTransactions fetched with
      | .error _ => ⟨true, st, []⟩
      | .ok payload =>
        let events := extractNewEvents payload lastSeen
        match events.getLast? with
        | none => ⟨false, st, []⟩
        | some le =>
          let newestHash := le.tx_hash
          let qualifying := events.filter (fun e => !decide (e.amount_wco < minAmountWco))
          let finalSubs := qualifying.foldl
            (fun subs _ => (broadcastBuyback outcome subscribers subs).2) st.subscribers
          ⟨false, { subscribers := finalSubs, lastSeen := some newestHash }, qualifying⟩

/-- `BuybackAlertService.ensure_initialized`: when the cursor is unset, fetch
one newest item (`page_size=1`) and set the cursor to its hash without
sending anything.  Returns the page sizes requested from the client, the new
state, and the alerts sent (the method contains no send call). -/
def ensureInitialized (fetch : ℕ → List BItem) (st : BuybackState) :
    List ℕ × BuybackState × List BuybackEvent :=
  if truthyOpt st.lastSeen then ([], st, [])
  else
    let items := fetch 1
    let latestHash := match items.head? with
      | some it => it.hash
      | none => none
    match latestHash with
    | some h =>
      if !truthyOpt st.lastSeen && (h != "") then
        ([1], { st with lastSeen := some h }, [])
      else ([1], st, [])
    | none => ([1], st, [])

/-- Removal loop of `_broadcast`: membership after removing every element of
`l` from the set `s`. -/
theorem mem_foldl_remove (l : List ℤ) (s : List ℤ) (c : ℤ) :
    c ∈ l.foldl (fun s x => s.filter (fun y => y != x)) s ↔ c ∈ s ∧ c ∉ l := by
  induction l generalizing s with
  | nil => simp
  | cons a as ih =>
    rw [List.foldl_cons, ih]
    simp only [List.mem_filter, bne_iff_ne, ne_eq, List.mem_cons, not_or]
    tauto

/-- Claim C4 (cold-start baseline, exhibited by
`BuybackAlertService.ensure_initialized`): started with no stored cursor
against a feed whose newest item carries a hash, initialization requests
exactly one item (`page_size=1`), sets the cursor to that item's hash, and
sends no alert. -/
theorem claim_C4_cold_start_baseline (feed : List BItem) (it : BItem) (h : String)
    (subs : List ℤ)
    (hhead : feed.head? = some it) (hhash : it.hash = some h) (hne : h ≠ "") :
    ensureInitialized (fun n => feed.take n) ⟨subs, none⟩ =
      ([1], ⟨subs, some h⟩, []) := by
  cases feed with
  | nil => cases hhead
  | cons x tl =>
    have hx : x = it := by
      simpa using hhead
    subst hx
    simp [ensureInitialized, truthyOpt, hhash, hne]

/-- Concrete instance discharging the hypotheses of
`claim_C4_cold_start_baseline`. -/
theorem claim_C4_witness :
    ([(⟨some "h1", RawValue.num 1, FromField.missing, none, none⟩ : BItem)].head? =
        some ⟨some "h1", RawValue.num 1, FromField.missing, none, none⟩ ∧
      ("h1" : String) ≠ "") ∧
    ensureInitialized
        (fun n => [(⟨some "h1", RawValue.num 1, FromField.missing, none, none⟩ : BItem)].take n)
        ⟨[], none⟩ =
      ([1], ⟨[], some "h1"⟩, []) :=
  ⟨⟨rfl, by decide⟩,
    claim_C4_cold_start_baseline
      [⟨some "h1", RawValue.num 1, FromField.missing, none, none⟩]
      ⟨some "h1", RawValue.num 1, FromField.missing, none, none⟩ "h1" []
      rfl rfl (by decide)⟩

/-- Claim C9: toggling a not-yet-subscribed chat returns `True` then `False`,
`is_subscribed` matches the returned value after each call, and the double
toggle restores the original subscriber set. -/
theorem claim_C9_toggle_idempotent (st : BuybackState) (chatId : ℤ)
    (hnot : chatId ∉ st.subscribers) :
    (toggleSubscription st chatId).1 = true ∧
    isSubscribed (toggleSubscription st chatId).2 chatId = true ∧
    (toggleSubscription (toggleSubscription st chatId).2 chatId).1 = false ∧
    isSubscribed (toggleSubscription (toggleSubscription st chatId).2 chatId).2 chatId
      = false ∧
    (toggleSubscription (toggleSubscription st chatId).2 chatId).2.subscribers =
      st.subscribers := by
  have h1 : toggleSubscription st chatId =
      (true, { st with subscribers := chatId :: st.subscribers }) := by
    unfold toggleSubscription
    rw [if_neg hnot]
  have hmem : chatId ∈ chatId :: st.subscribers := List.mem_cons_self _ _
  have hfilter : (chatId :: st.subscribers).filter (fun c => c != chatId) =
      st.subscribers := by
    rw [List.filter_cons]
    simp only [bne_self_eq_false, Bool.false_eq_true, if_false]
    apply List.filter_eq_self.mpr
    intro a ha
    simp only [bne_iff_ne, ne_eq]
    intro hEq
    exact hnot (hEq ▸ ha)
  have h2 : toggleSubscription { st with subscribers := chatId :: st.subscribers } chatId =
      (false, { st with subscribers := st.subscribers }) := by
    unfold toggleSubscription
    rw [if_pos hmem]
    rw [hfilter]
  rw [h1]
  simp [h2, isSubscribed, hnot]

/-- Concrete instance discharging the hypothesis of
`claim_C9_toggle_idempotent` at chat 5 and subscriber set `[7]`. -/
theorem claim_C9_witness :
    ((5 : ℤ) ∉ [(7 : ℤ)]) ∧
    ((toggleSubscription ⟨[7], none⟩ 5).1 = true ∧
      isSubscribed (toggleSubscription ⟨[7], none⟩ 5).2 5 = true ∧
      (toggleSubscription (toggleSubscription ⟨[7], none⟩ 5).2 5).1 = false ∧
      isSubscribed (toggleSubscription (toggleSubscription ⟨[7], none⟩ 5).2 5).2 5
        = false ∧
      (toggleSubscription (toggleSubscription ⟨[7], none⟩ 5).2 5).2.subscribers = [7]) :=
  ⟨by decide, claim_C9_toggle_idempotent ⟨[7], none⟩ 5 (by decide)⟩

/-- Claim C7 counterexample: one chat (id 1) fails with a *transient* error
while chat 2 succeeds; `_broadcast` nevertheless removes chat 1 from the
subscriber set, contradicting "a transient delivery failure leaves the
subscriber set unchanged". -/
theorem claim_C7_counterexample :
    (fun c => if c = (1 : ℤ) then SendResult.transientErr else SendResult.ok) 1 =
      SendResult.transientErr ∧
    (broadcastBuyback
        (fun c => if c = (1 : ℤ) then SendResult.transientErr else SendResult.ok)
        [1, 2] [1, 2]).2 = [2] ∧
    (1 : ℤ) ∉ (broadcastBuyback
        (fun c => if c = (1 : ℤ) then SendResult.transientErr else SendResult.ok)
        [1, 2] [1, 2]).2 := by
  refine ⟨rfl, rfl, by decide⟩

/-- Claim C7 as amended: a delivery failure for one subscriber does not
prevent the send attempt to every remaining subscriber (each chat id in the
broadcast list gets exactly one attempt, in order), and a subscriber is
removed whenever its delivery fails — with a permanent *or* a transient
error alike; only subscribers whose send succeeded (or who were not in the
broadcast list) remain. -/
theorem claim_C7_broadcast_amended (outcome : ℤ → SendResult) (chatIds subs : List ℤ) :
    (broadcastBuyback outcome chatIds subs).1.map Prod.fst = chatIds ∧
    ∀ c : ℤ, c ∈ (broadcastBuyback outcome chatIds subs).2 ↔
      c ∈ subs ∧ (c ∉ chatIds ∨ outcome c = SendResult.ok) := by
  constructor
  · show (chatIds.map (fun c => (c, outcome c))).map Prod.fst = chatIds
    rw [List.map_map]
    exact List.map_id' chatIds
  · intro c
    have hshape : (broadcastBuyback outcome chatIds subs).2 =
        (chatIds.filter (fun c => outcome c != SendResult.ok)).foldl
          (fun s x => s.filter (fun y => y != x)) subs := rfl
    rw [hshape, mem_foldl_remove]
    simp only [List.mem_filter, bne_iff_ne, ne_eq, not_and, Decidable.not_not]
    constructor
    · rintro ⟨hs, himp⟩
      refine ⟨hs, ?_⟩
      by_cases hin : c ∈ chatIds
      · exact Or.inr (himp hin)
      · exact Or.inl hin
    · rintro ⟨hs, hor⟩
      refine ⟨hs, fun hin => ?_⟩
      cases hor with
      | inl hnin => exact absurd hin hnin
      | inr hok => exact hok

/-- Claim C8 counterexample: a cycle whose fetch returns a 2xx body that is
not valid JSON (`json.JSONDecodeError` is not an `httpx.HTTPError`, so the
client does not catch it).  The cursor stays unchanged and nothing is
delivered, but the exception escapes the watcher (`raised = true`),
contradicting "no exception propagated out of the watcher". -/
theorem claim_C8_counterexample :
    pollAndBroadcast true 0 FetchOutcome.badJson (fun _ => SendResult.ok)
        ⟨[7], some "x"⟩ =
      ⟨true, ⟨[7], some "x"⟩, []⟩ := by
  rfl

/-- Claim C8 as amended: in a cycle with subscribers present, an upstream
fetch failure that raises `httpx.HTTPError` (network error, timeout, non-2xx)
is swallowed: no exception escapes, the whole state (cursor and subscribers)
is unchanged, and nothing is delivered.  A 2xx response whose body is not
valid JSON also leaves the state unchanged with nothing delivered, but its
exception escapes the watcher. -/
theorem claim_C8_fetch_failure_amended (minA : ℚ) (outcome : ℤ → SendResult)
    (st : BuybackState) (hsubs : st.subscribers ≠ []) :
    pollAndBroadcast true minA FetchOutcome.httpErr outcome st = ⟨false, st, []⟩ ∧
    pollAndBroadcast true minA FetchOutcome.badJson outcome st = ⟨true, st, []⟩ := by
  constructor
  · unfold pollAndBroadcast
    simp [getAddressTransactions, extractNewEvents, collectNew, hsubs]
  · unfold pollAndBroadcast
    simp [getAddressTransactions, hsubs]

/-- Concrete instance discharging the hypothesis of
`claim_C8_fetch_failure_amended`. -/
theorem claim_C8_witness :
    ([(7 : ℤ)] ≠ []) ∧
    (pollAndBroadcast true 0 FetchOutcome.httpErr (fun _ => SendResult.ok)
        ⟨[7], some "x"⟩ = ⟨false, ⟨[7], some "x"⟩, []⟩ ∧
      pollAndBroadcast true 0 FetchOutcome.badJson (fun _ => SendResult.ok)
        ⟨[7], some "x"⟩ = ⟨true, ⟨[7], some "x"⟩, []⟩) :=
  ⟨by decide, claim_C8_fetch_failure_amended 0 (fun _ => SendResult.ok)
    ⟨[7], some "x"⟩ (by decide)⟩

/-- Demo feed for claim C6: item `"b"` (newest) has an unparseable value,
item `"a"` is a valid 5 WCO transfer, item `"c0"` is the cursor position. -/
theorem extractNewEvents_demo :
    extractNewEvents
        (some [⟨some "b", RawValue.notNum, FromField.missing, none, none⟩,
          ⟨some "a", RawValue.num (5 * 10 ^ 18), FromField.missing, none, none⟩,
          ⟨some "c0", RawValue.num 1, FromField.missing, none, none⟩]) (some "c0") =
      [⟨"a", ((5 * 10 ^ 18 : ℤ) : ℚ) / (10 ^ 18 : ℚ), none, none⟩] := by
  have hb : itemToBuybackEvent ⟨some "b", RawValue.notNum, FromField.missing, none, none⟩ =
      none := rfl
  have hparse : parseWcoAmount (RawValue.num (5 * 10 ^ 18)) =
      some (((5 * 10 ^ 18 : ℤ) : ℚ) / (10 ^ 18 : ℚ)) := by
    show (if (5 * 10 ^ 18 : ℤ) ≤ 0 then some (0 : ℚ)
        else some (((5 * 10 ^ 18 : ℤ) : ℚ) / (10 ^ 18 : ℚ))) =
      some (((5 * 10 ^ 18 : ℤ) : ℚ) / (10 ^ 18 : ℚ))
    rw [if_neg (by norm_num)]
  have hpos : ¬ ((5 * 10 ^ 18 : ℤ) : ℚ) / (10 ^ 18 : ℚ) ≤ 0 := by
    rw [not_le]
    positivity
  have ha : itemToBuybackEvent
      ⟨some "a", RawValue.num (5 * 10 ^ 18), FromField.missing, none, none⟩ =
      some ⟨"a", ((5 * 10 ^ 18 : ℤ) : ℚ) / (10 ^ 18 : ℚ), none, none⟩ := by
    unfold itemToBuybackEvent
    simp only [hparse]
    rw [if_neg hpos]
    rfl
  have hcol : collectNew buybackKey (some "c0")
      [⟨some "b", RawValue.notNum, FromField.missing, none, none⟩,
        ⟨some "a", RawValue.num (5 * 10 ^ 18), FromField.missing, none, none⟩,
        ⟨some "c0", RawValue.num 1, FromField.missing, none, none⟩] =
      [⟨some "b", RawValue.notNum, FromField.missing, none, none⟩,
        ⟨some "a", RawValue.num (5 * 10 ^ 18), FromField.missing, none, none⟩] := by
    rfl
  unfold extractNewEvents
  simp only [Option.getD_some, hcol]
  rw [if_neg (List.cons_ne_nil _ _)]
  simp only [List.reverse_cons, List.reverse_nil, List.nil_append, List.cons_append,
    List.filterMap_cons, List.filterMap_nil, ha, hb]

/-- Claim C6 counterexample: feed (newest-first)
`[{hash "b", value unparseable}, {hash "a", value 5 WCO}, {hash "c0", ...}]`
with cursor `"c0"`.  Both `"b"` and `"a"` are collected ahead of the cursor
and carry hashes, but `poll_and_broadcast` advances the cursor to `"a"` —
the newest item that yielded an *event* — not to `"b"`, the item that was
newest in the original feed, contradicting the claim's "irrespective of
whether that item's amount field is parseable". -/
theorem claim_C6_counterexample :
    (pollAndBroadcast true 0
        (FetchOutcome.ok
          [⟨some "b", RawValue.notNum, FromField.missing, none, none⟩,
            ⟨some "a", RawValue.num (5 * 10 ^ 18), FromField.missing, none, none⟩,
            ⟨some "c0", RawValue.num 1, FromField.missing, none, none⟩])
        (fun _ => SendResult.ok) ⟨[7], some "c0"⟩).state.lastSeen = some "a" ∧
    (pollAndBroadcast true 0
        (FetchOutcome.ok
          [⟨some "b", RawValue.notNum, FromField.missing, none, none⟩,
            ⟨some "a", RawValue.num (5 * 10 ^ 18), FromField.missing, none, none⟩,
            ⟨some "c0", RawValue.num 1, FromField.missing, none, none⟩])
        (fun _ => SendResult.ok) ⟨[7], some "c0"⟩).state.lastSeen ≠ some "b" := by
  have hpoll : ∀ minA : ℚ, (pollAndBroadcast true minA
      (FetchOutcome.ok
        [⟨some "b", RawValue.notNum, FromField.missing, none, none⟩,
          ⟨some "a", RawValue.num (5 * 10 ^ 18), FromField.missing, none, none⟩,
          ⟨some "c0", RawValue.num 1, FromField.missing, none, none⟩])
      (fun _ => SendResult.ok) ⟨[7], some "c0"⟩).state.lastSeen = some "a" := by
    intro minA
    unfold pollAndBroadcast
    simp only [Bool.not_true, Bool.false_eq_true, if_false, getAddressTransactions]
    rw [if_neg (by decide : ¬ (⟨[7], some "c0"⟩ : BuybackState).subscribers = [])]
    simp only [extractNewEvents_demo, List.getLast?_singleton]
  exact ⟨hpoll 0, by rw [hpoll 0]; decide⟩

/-- Claim C6 as amended: in every poll cycle in which at least one collected
item yields an event (hash present, amount parseable and positive), the
cursor advances to the `tx_hash` of the newest such item — the last element
of the oldest-first event list — irrespective of the configured minimum
amount (the threshold is quantified over); and in every poll cycle whose
collected items yield no event, the whole state (cursor included) is left
unchanged and nothing is delivered. -/
theorem claim_C6_cursor_advances_to_newest_event (minA : ℚ) (items : List BItem)
    (outcome : ℤ → SendResult) (st : BuybackState)
    (hsubs : ¬ st.subscribers = []) :
    (extractNewEvents (some items) st.lastSeen = [] →
      pollAndBroadcast true minA (FetchOutcome.ok items) outcome st = ⟨false, st, []⟩) ∧
    ∀ le : BuybackEvent,
      (extractNewEvents (some items) st.lastSeen).getLast? = some le →
      (pollAndBroadcast true minA (FetchOutcome.ok items) outcome st).state.lastSeen =
        some le.tx_hash := by
  constructor
  · intro hev
    unfold pollAndBroadcast
    simp only [Bool.not_true, Bool.false_eq_true, if_false, getAddressTransactions]
    rw [if_neg hsubs]
    simp only [hev, List.getLast?_nil]
  · intro le hlast
    unfold pollAndBroadcast
    simp only [Bool.not_true, Bool.false_eq_true, if_false, getAddressTransactions]
    rw [if_neg hsubs]
    simp only [hlast]

/-- Concrete instance discharging the hypotheses of
`claim_C6_cursor_advances_to_newest_event`. -/
theorem claim_C6_witness :
    (¬ ([(7 : ℤ)] = []) ∧
      (extractNewEvents
          (some [⟨some "b", RawValue.notNum, FromField.missing, none, none⟩,
            ⟨some "a", RawValue.num (5 * 10 ^ 18), FromField.missing, none, none⟩,
            ⟨some "c0", RawValue.num 1, FromField.missing, none, none⟩])
          (some "c0")).getLast? =
        some ⟨"a", ((5 * 10 ^ 18 : ℤ) : ℚ) / (10 ^ 18 : ℚ), none, none⟩ ∧
      extractNewEvents
          (some [(⟨some "c0", RawValue.num 1, FromField.missing, none, none⟩ : BItem)])
          (some "c0") = []) ∧
    ((pollAndBroadcast true 3 (FetchOutcome.ok
          [⟨some "b", RawValue.notNum, FromField.missing, none, none⟩,
            ⟨some "a", RawValue.num (5 * 10 ^ 18), FromField.missing, none, none⟩,
            ⟨some "c0", RawValue.num 1, FromField.missing, none, none⟩])
        (fun _ => SendResult.ok) ⟨[7], some "c0"⟩).state.lastSeen = some "a" ∧
      pollAndBroadcast true 3 (FetchOutcome.ok
          [(⟨some "c0", RawValue.num 1, FromField.missing, none, none⟩ : BItem)])
        (fun _ => SendResult.ok) ⟨[7], some "c0"⟩ =
        ⟨false, ⟨[7], some "c0"⟩, []⟩) :=
  ⟨⟨by decide, by rw [extractNewEvents_demo]; rfl, rfl⟩,
    (claim_C6_cursor_advances_to_newest_event 3
        [⟨some "b", RawValue.notNum, FromField.missing, none, none⟩,
          ⟨some "a", RawValue.num (5 * 10 ^ 18), FromField.missing, none, none⟩,
          ⟨some "c0", RawValue.num 1, FromField.missing, none, none⟩]
        (fun _ => SendResult.ok) ⟨[7], some "c0"⟩ (by decide)).2
      ⟨"a", ((5 * 10 ^ 18 : ℤ) : ℚ) / (10 ^ 18 : ℚ), none, none⟩
      (by rw [extractNewEvents_demo]; rfl),
    (claim_C6_cursor_advances_to_newest_event 3
        [(⟨some "c0", RawValue.num 1, FromField.missing, none, none⟩ : BItem)]
        (fun _ => SendResult.ok) ⟨[7], some "c0"⟩ (by decide)).1 rfl⟩

/-! Persisted state file.  `BUYBACK_ALERT_STATE_PATH`, `WHALE_ALERT_STATE_PATH`
and `EXCHANGE_FLOW_ALERT_STATE_PATH` all default to the same file
`.alert_state.json` (app/config.py), so the three watchers share one JSON
document with one top-level key each.  Section payloads are opaque here
(type `α`); a document is the association list of its top-level keys. -/

/-- State of the shared file on disk: missing, unparseable JSON, or a parsed
JSON object mapping top-level section names to payloads. -/
inductive DiskState (α : Type)
  | absent
  | malformed
  | stored (doc : List (String × α))
deriving DecidableEq

/-- Python dict assignment `data[name] = payload` on a parsed JSON object:
replace the first binding of `name` if present, else append. -/
def setSection (doc : List (String × α)) (name : String) (payload : α) :
    List (String × α) :=
  match doc with
  | [] => [(name, payload)]
  | (k, v) :: rest =>
    if k = name then (k, payload) :: rest
    else (k, v) :: setSection rest name payload

/-- Reading one watcher's section from the parsed document
(`data.get(name)`). -/
def loadSection (name : String) (doc : List (String × α)) : Option α :=
  match doc with
  | [] => none
  | (k, v) :: rest => if k = name then some v else loadSection name rest

/-- `WCOWhaleAlert._save_state`: read the current document (file absent or
unparseable treated as an empty object — "Preserve other sections if the
state file is shared"), overwrite the `"whale"` key, write everything back. -/
def whaleSaveState (disk : DiskState α) (whaleSection : α) : List (String × α) :=
  let data := match disk with
    | .stored doc => doc
    | _ => []
  setSection data "whale" whaleSection

/-- `BuybackAlertService._save_state`: builds `{"buyback": {...}}` from the
in-memory state and writes it, without reading the file first. -/
def buybackSaveState (_disk : DiskState α) (buybackSection : α) :
    List (String × α) :=
  [("buyback", buybackSection)]

/-- Claim C1 evaluated at its failing input: on the shared default state
file, save the whale section, then the buyback section, then reload.  The
whale payload was on disk after the first save, but the buyback save is a
truncate-write (`data = {"buyback": ...}` with no read-merge), so reloading
yields nothing for `"whale"` — the claim's required `some 1` fails.  In the
opposite order the whale save does merge, so the asymmetry is exhibited. -/
theorem claim_C1_buyback_save_truncates :
    (loadSection "whale" (whaleSaveState (DiskState.absent) (1 : ℕ)) = some 1 ∧
      loadSection "whale"
        (buybackSaveState (DiskState.stored (whaleSaveState DiskState.absent (1 : ℕ))) 2) =
        none) ∧
    loadSection "buyback"
        (whaleSaveState (DiskState.stored (buybackSaveState DiskState.absent (2 : ℕ))) 1) =
      some 2 := by
  constructor
  · constructor
    · rfl
    · rfl
  · rfl

/-! Bounded processed-id cache (`WCODexAlertService._mark_processed`,
`WSwapLiquidityAlertService._mark_processed`).  `_processed_tx_hashes` is a
Python `set`; `list(set)[:excess]` takes the first `excess` elements in the
set's *iteration order*, which CPython derives from hashes, not from
insertion order.  The cache is therefore modelled as the list of the set's
elements in iteration order, with the slot where a newly added element lands
given by a placement parameter `place`. -/

/-- Python `set.add`: no change when the element is present, otherwise the
new iteration order is produced by the placement parameter. -/
def pySetAdd (place : List String → String → List String)
    (s : List String) (x : String) : List String :=
  if x ∈ s then s else place s x

/-- `_mark_processed(tx_hash)`: `add`, then while the size exceeds the cap
remove `list(set)[:excess]` — the first `excess` elements in iteration
order — via `discard`. -/
def markProcessed (place : List String → String → List String) (maxSize : ℕ)
    (s : List String) (x : String) : List String :=
  let s' := pySetAdd place s x
  if s'.length > maxSize then
    let excess := s'.length - maxSize
    let toRemove := s'.take excess
    toRemove.foldl (fun acc h => acc.erase h) s'
  else s'

/-- One possible CPython iteration order: the newly added element iterates
first.  (Set order is hash-dependent; nothing in the code constrains it.) -/
def placeDemo : List String → String → List String := fun s x => x :: s

/-- Claim C3 evaluated at a failing input (cap 2, ids inserted in the order
`"c"`, `"b"`, `"a"`, iteration order as in `placeDemo`): after the final
mark exactly `maxSize` ids are resident — that half of the claim holds —
but the evicted id is `"a"`, the *newest*-inserted one, while the
oldest-inserted `"c"` survives, contradicting "the ids evicted are the
oldest-inserted ones" (and the code's own comment "Remove oldest
entries"). -/
theorem claim_C3_cache_eviction_not_oldest :
    (["c", "b", "a"].foldl (markProcessed placeDemo 2) []).length = 2 ∧
    ["c", "b", "a"].foldl (markProcessed placeDemo 2) [] = ["b", "c"] ∧
    "c" ∈ ["c", "b", "a"].foldl (markProcessed placeDemo 2) [] ∧
    "a" ∉ ["c", "b", "a"].foldl (markProcessed placeDemo 2) [] := by
  refine ⟨rfl, rfl, by decide, by decide⟩

/-! WCO whale alerts (`app/services/wco_whale_alert.py`). -/

/-- An address object inside an internal transaction record: the `"hash"`
and `"is_contract"` fields. -/
structure AddrInfo where
  hash : Option String
  is_contract : Option Bool
deriving DecidableEq

/-- A JSON field that `isinstance(..., dict)` is applied to: absent, present
but not an object, or an object. -/
inductive DictField (α : Type)
  | missing
  | nonDict
  | dict (v : α)
deriving DecidableEq

/-- An internal-transaction record as consumed by
`WCOWhaleAlert._extract_new_whale_buys`: `"transaction_hash"`, `"index"`,
`"from"`, `"to"`, `"value"` and `"timestamp"`. -/
structure InternalTx where
  transaction_hash : Option String
  index : Option ℤ
  fromField : DictField AddrInfo
  toField : DictField AddrInfo
  value : RawValue
  timestamp : Option String
deriving DecidableEq

/-- `WhaleBuyEvent` dataclass. -/
structure WhaleBuyEvent where
  unique_key : String
  tx_hash : String
  buyer_wallet : String
  amount_wco : ℚ
  timestamp : Option String
deriving DecidableEq

/-- Python `str.lower()` for the ASCII addresses and hashes handled here:
per-character lowercasing applied to the string's character list. -/
def pyLower (s : String) : String := ⟨s.data.map Char.toLower⟩

/-- `WCOWhaleAlert.MINI_MIN` (the only tier bound that gates delivery). -/
def MINI_MIN : ℚ := 500000

/-- `WCOWhaleAlert._unique_key`: `None` unless `transaction_hash` is truthy
and `index` is not `None`; otherwise `"{tx_hash}:{index}"`. -/
def uniqueKeyW (it : InternalTx) : Option String :=
  match it.transaction_hash, it.index with
  | some tx, some idx => if tx = "" then none else some (tx ++ ":" ++ toString idx)
  | _, _ => none

/-- `((item.get("from") or {}) if isinstance(item.get("from"), dict) else {})`. -/
def dictOrEmpty : DictField AddrInfo → AddrInfo
  | .dict a => a
  | _ => ⟨none, none⟩

/-- The classification step of `_extract_new_whale_buys` for one collected
item: require truthy from/to hashes, `from == router` (lowercased),
`to != router`, destination not a contract, a positive parsed amount, a
unique key and a truthy transaction hash; otherwise the item is skipped. -/
def itemToWhaleEvent (routerLower : String) (it : InternalTx) :
    Option WhaleBuyEvent :=
  if !truthyOpt (dictOrEmpty it.fromField).hash ||
      !truthyOpt (dictOrEmpty it.toField).hash then none
  else if pyLower (pythonStr (dictOrEmpty it.fromField).hash) ≠ routerLower then none
  else if pyLower (pythonStr (dictOrEmpty it.toField).hash) = routerLower then none
  else if (dictOrEmpty it.toField).is_contract = some true then none
  else
    match parseWcoAmount it.value with
    | none => none
    | some amount =>
      if amount ≤ 0 then none
      else
        match uniqueKeyW it with
        | none => none
        | some key =>
          match it.transaction_hash with
          | none => none
          | some tx =>
            if tx = "" then none
            else some
              { unique_key := key
                tx_hash := tx
                buyer_wallet := pythonStr (dictOrEmpty it.toField).hash
                amount_wco := amount
                timestamp := if truthyOpt it.timestamp then it.timestamp else none }

/-- `WCOWhaleAlert._extract_new_whale_buys`: collect raw items ahead of the
cursor (newest-first), reverse to oldest-first, then classify each item
(`router = self.settings.whale_router_address.lower()` is applied before the
loop). -/
def extractNewWhaleBuys (router : String) (payload : Option (List InternalTx))
    (lastSeen : Option String) : List WhaleBuyEvent :=
  let items := payload.getD []
  let newItems := collectNew uniqueKeyW lastSeen items
  if newItems = [] then []
  else newItems.reverse.filterMap (itemToWhaleEvent (pyLower router))

/-- Result of one `poll_and_alert` cycle: the events delivered to the
channel and the new cursor. -/
structure WhalePollResult where
  delivered : List WhaleBuyEvent
  newLastSeen : Option String
deriving DecidableEq

/-- `WCOWhaleAlert.poll_and_alert`: gate on the feature flag, the router
address and the channel id; extract new whale buys; if any, set
`newest_key = events[-1].unique_key` *before* the threshold loop, deliver
every event at or above `MINI_MIN`, then advance the cursor to
`newest_key`. -/
def whalePoll (enabled : Bool) (router : String) (channelSet : Bool)
    (payload : Option (List InternalTx)) (lastSeen : Option String) :
    WhalePollResult :=
  if !enabled then ⟨[], lastSeen⟩
  else if router = "" then ⟨[], lastSeen⟩
  else if !channelSet then ⟨[], lastSeen⟩
  else
    let events := extractNewWhaleBuys router payload lastSeen
    match events.getLast? with
    | none => ⟨[], lastSeen⟩
    | some le =>
      ⟨events.filter (fun e => !decide (e.amount_wco < MINI_MIN)), some le.unique_key⟩

theorem uniqueKeyW_ne_empty {it : InternalTx} {k : String}
    (h : uniqueKeyW it = some k) : k ≠ "" := by
  obtain ⟨tx?, idx?, ff, tf, v, ts⟩ := it
  cases tx? with
  | none => cases h
  | some tx =>
    cases idx? with
    | none => cases h
    | some idx =>
      simp only [uniqueKeyW] at h
      by_cases htx : tx = ""
      · rw [if_pos htx] at h; cases h
      · rw [if_neg htx] at h
        injection h with h
        intro hk
        rw [← h] at hk
        have hlen := congrArg String.length hk
        rw [String.length_append, String.length_append] at hlen
        have h1 : (":" : String).length = 1 := rfl
        have h0 : ("" : String).length = 0 := rfl
        omega

/-- Decomposition of a non-empty `filterMap` at its head: the underlying
list splits into a prefix mapped to `none`, the first item producing the
head, and a tail. -/
theorem filterMap_head_decomp (f : α → Option β) :
    ∀ (l : List α) (b : β), (l.filterMap f).head? = some b →
      ∃ pre j post, l = pre ++ j :: post ∧ (∀ x ∈ pre, f x = none) ∧ f j = some b := by
  intro l
  induction l with
  | nil => intro b h; simp at h
  | cons a as ih =>
    intro b h
    cases hfa : f a with
    | none =>
      rw [List.filterMap_cons_none hfa] at h
      obtain ⟨pre, j, post, hl, hpre, hj⟩ := ih b h
      refine ⟨a :: pre, j, post, by rw [hl]; rfl, ?_, hj⟩
      intro x hx
      rcases List.mem_cons.mp hx with rfl | hx
      · exact hfa
      · exact hpre x hx
    | some c =>
      rw [List.filterMap_cons_some hfa] at h
      simp only [List.head?_cons, Option.some.injEq] at h
      refine ⟨[], a, as, rfl, by simp, ?_⟩
      rw [hfa, h]

theorem itemToWhaleEvent_key {r : String} {it : InternalTx} {e : WhaleBuyEvent}
    (h : itemToWhaleEvent r it = some e) : uniqueKeyW it = some e.unique_key := by
  unfold itemToWhaleEvent at h
  repeat' split at h
  all_goals try cases h
  all_goals assumption

/-- Re-scanning the same feed with the cursor set to the key of the first
event-yielding collected item collects only items that yield no event:
the scan stops at (or before) that item, and everything collected ahead of
it was already mapped to `none`. -/
theorem collectNew_rescan_none (keyFn : α → Option String) (f : α → Option β)
    (hk : ∀ (it : α) (k : String), keyFn it = some k → k ≠ "") :
    ∀ (items : List α) (ls : Option String) (pre : List α) (j : α) (post : List α)
      (kj : String),
      collectNew keyFn ls items = pre ++ j :: post →
      (∀ x ∈ pre, f x = none) →
      keyFn j = some kj →
      ∀ x ∈ collectNew keyFn (some kj) items, f x = none := by
  intro items
  induction items with
  | nil =>
    intro ls pre j post kj hcol
    rw [collectNew_nil] at hcol
    exact absurd hcol.symm (List.append_ne_nil_of_right_ne_nil _ (List.cons_ne_nil _ _))
  | cons it rest ih =>
    intro ls pre j post kj hcol hpre hkj x hx
    rw [collectNew_cons] at hcol
    rw [collectNew_cons] at hx
    cases hke : keyFn it with
    | none =>
      simp only [hke] at hcol hx
      exact ih ls pre j post kj hcol hpre hkj x hx
    | some k =>
      simp only [hke] at hcol hx
      by_cases hhit : lastSeenHit ls k = true
      · rw [if_pos hhit] at hcol
        exact absurd hcol.symm (List.append_ne_nil_of_right_ne_nil _ (List.cons_ne_nil _ _))
      · rw [if_neg hhit] at hcol
        cases pre with
        | nil =>
          simp only [List.nil_append] at hcol
          injection hcol with hij hrest
          have hsome : (some k : Option String) = some kj := by
            rw [← hke, hij, hkj]
          have hkk := Option.some.inj hsome
          have hkne : kj ≠ "" := hk j kj hkj
          have hstop : lastSeenHit (some kj) k = true := by
            rw [hkk]
            simp [lastSeenHit, hkne]
          rw [if_pos hstop] at hx
          simp at hx
        | cons p pre' =>
          simp only [List.cons_append] at hcol
          injection hcol with h1 h2
          by_cases hhit2 : lastSeenHit (some kj) k = true
          · rw [if_pos hhit2] at hx
            simp at hx
          · rw [if_neg hhit2] at hx
            rcases List.mem_cons.mp hx with rfl | hx'
            · rw [h1]
              exact hpre p (by simp)
            · exact ih ls pre' j post kj h2 (fun y hy => hpre y (by simp [hy])) hkj x hx'

/-- After a poll the cursor points at the newest event-yielding item;
re-running extraction on the same feed with that cursor yields nothing. -/
theorem extractNewWhaleBuys_rescan (router : String)
    (payload : Option (List InternalTx)) (ls : Option String) (le : WhaleBuyEvent)
    (h : (extractNewWhaleBuys router payload ls).getLast? = some le) :
    extractNewWhaleBuys router payload (some le.unique_key) = [] := by
  by_cases hc : collectNew uniqueKeyW ls (payload.getD []) = []
  · exfalso
    unfold extractNewWhaleBuys at h
    rw [if_pos hc] at h
    cases h
  · have hev : extractNewWhaleBuys router payload ls =
        ((collectNew uniqueKeyW ls (payload.getD [])).filterMap
          (itemToWhaleEvent (pyLower router))).reverse := by
      unfold extractNewWhaleBuys
      rw [if_neg hc, List.filterMap_reverse]
    rw [hev, List.getLast?_reverse] at h
    obtain ⟨pre, j, post, hsplit, hpre, hj⟩ :=
      filterMap_head_decomp (itemToWhaleEvent (pyLower router)) _ le h
    have hkey : uniqueKeyW j = some le.unique_key := itemToWhaleEvent_key hj
    have hnone : ∀ x ∈ collectNew uniqueKeyW (some le.unique_key) (payload.getD []),
        itemToWhaleEvent (pyLower router) x = none :=
      collectNew_rescan_none uniqueKeyW (itemToWhaleEvent (pyLower router))
        (fun _ _ hk => uniqueKeyW_ne_empty hk) _ ls pre j post le.unique_key
        hsplit hpre hkey
    unfold extractNewWhaleBuys
    by_cases hc2 : collectNew uniqueKeyW (some le.unique_key) (payload.getD []) = []
    · rw [if_pos hc2]
    · rw [if_neg hc2]
      apply List.filterMap_eq_nil_iff.mpr
      intro a ha
      exact hnone a (List.mem_reverse.mp ha)

/-- Claim C5 (threshold exclusion, exhibited by `WCOWhaleAlert`): an
extracted event whose amount is below `MINI_MIN` is never delivered, yet the
cycle still advances the cursor to the key of the newest extracted event, so
that re-scanning the same feed with the new cursor yields no events — the
below-threshold item is not re-evaluated next cycle. -/
theorem claim_C5_threshold_exclusion (router : String)
    (payload : Option (List InternalTx)) (ls : Option String) (e : WhaleBuyEvent)
    (hr : ¬ router = "")
    (he : e ∈ extractNewWhaleBuys router payload ls)
    (hlt : e.amount_wco < MINI_MIN) :
    e ∉ (whalePoll true router true payload ls).delivered ∧
    (∃ le, (extractNewWhaleBuys router payload ls).getLast? = some le ∧
      (whalePoll true router true payload ls).newLastSeen = some le.unique_key) ∧
    extractNewWhaleBuys router payload
      ((whalePoll true router true payload ls).newLastSeen) = [] := by
  cases hle : (extractNewWhaleBuys router payload ls).getLast? with
  | none =>
    rw [List.getLast?_eq_none_iff] at hle
    rw [hle] at he
    cases he
  | some le =>
    have hpoll : whalePoll true router true payload ls =
        ⟨(extractNewWhaleBuys router payload ls).filter
            (fun e => !decide (e.amount_wco < MINI_MIN)),
          some le.unique_key⟩ := by
      unfold whalePoll
      simp only [Bool.not_true, Bool.false_eq_true, if_false]
      rw [if_neg hr]
      simp only [hle]
    refine ⟨?_, ⟨le, rfl, by rw [hpoll]⟩, ?_⟩
    · rw [hpoll]
      intro hmem
      have := (List.mem_filter.mp hmem).2
      simp only [Bool.not_eq_true', decide_eq_false_iff_not] at this
      exact this hlt
    · rw [hpoll]
      exact extractNewWhaleBuys_rescan router payload ls le hle

/-- Demo feed for claim C5: a single router → user internal transfer of
1 WCO (below `MINI_MIN`), fetched with no cursor set. -/
theorem extractNewWhaleBuys_demo :
    extractNewWhaleBuys "R"
        (some [⟨some "t", some 0, DictField.dict ⟨some "r", none⟩,
          DictField.dict ⟨some "u", some false⟩, RawValue.num (10 ^ 18), none⟩]) none =
      [⟨"t:0", "t", "u", ((10 ^ 18 : ℤ) : ℚ) / (10 ^ 18 : ℚ), none⟩] := by
  have hparse : parseWcoAmount (RawValue.num (10 ^ 18)) =
      some (((10 ^ 18 : ℤ) : ℚ) / (10 ^ 18 : ℚ)) := by
    show (if (10 ^ 18 : ℤ) ≤ 0 then some (0 : ℚ)
        else some (((10 ^ 18 : ℤ) : ℚ) / (10 ^ 18 : ℚ))) =
      some (((10 ^ 18 : ℤ) : ℚ) / (10 ^ 18 : ℚ))
    rw [if_neg (by norm_num)]
  have hpos : ¬ ((10 ^ 18 : ℤ) : ℚ) / (10 ^ 18 : ℚ) ≤ 0 := by
    rw [not_le]
    positivity
  have hitem : itemToWhaleEvent "r"
      ⟨some "t", some 0, DictField.dict ⟨some "r", none⟩,
        DictField.dict ⟨some "u", some false⟩, RawValue.num (10 ^ 18), none⟩ =
      some ⟨"t:0", "t", "u", ((10 ^ 18 : ℤ) : ℚ) / (10 ^ 18 : ℚ), none⟩ := by
    unfold itemToWhaleEvent
    rw [if_neg (by decide)]
    rw [if_neg (by decide)]
    rw [if_neg (by decide)]
    rw [if_neg (by decide)]
    simp only [hparse]
    rw [if_neg hpos]
    rfl
  have hlow : pyLower "R" = "r" := by decide
  have hcol : collectNew uniqueKeyW none
      [(⟨some "t", some 0, DictField.dict ⟨some "r", none⟩,
        DictField.dict ⟨some "u", some false⟩, RawValue.num (10 ^ 18), none⟩ : InternalTx)] =
      [⟨some "t", some 0, DictField.dict ⟨some "r", none⟩,
        DictField.dict ⟨some "u", some false⟩, RawValue.num (10 ^ 18), none⟩] := rfl
  unfold extractNewWhaleBuys
  rw [hlow]
  simp only [Option.getD_some, hcol]
  rw [if_neg (List.cons_ne_nil _ _)]
  simp only [List.reverse_cons, List.reverse_nil, List.nil_append,
    List.filterMap_cons, List.filterMap_nil, hitem]

/-- Concrete instance discharging the hypotheses of
`claim_C5_threshold_exclusion`: a 1 WCO whale buy (below the 500000
`MINI_MIN`) is not delivered, the cursor advances to its key `"t:0"`, and a
re-scan of the same feed yields nothing. -/
theorem claim_C5_witness :
    ((¬ ("R" : String) = "") ∧
      (⟨"t:0", "t", "u", ((10 ^ 18 : ℤ) : ℚ) / (10 ^ 18 : ℚ), none⟩ : WhaleBuyEvent) ∈
        extractNewWhaleBuys "R"
          (some [⟨some "t", some 0, DictField.dict ⟨some "r", none⟩,
            DictField.dict ⟨some "u", some false⟩, RawValue.num (10 ^ 18), none⟩]) none ∧
      (⟨"t:0", "t", "u", ((10 ^ 18 : ℤ) : ℚ) / (10 ^ 18 : ℚ), none⟩ :
        WhaleBuyEvent).amount_wco < MINI_MIN) ∧
    ((⟨"t:0", "t", "u", ((10 ^ 18 : ℤ) : ℚ) / (10 ^ 18 : ℚ), none⟩ : WhaleBuyEvent) ∉
        (whalePoll true "R" true
          (some [⟨some "t", some 0, DictField.dict ⟨some "r", none⟩,
            DictField.dict ⟨some "u", some false⟩, RawValue.num (10 ^ 18), none⟩])
          none).delivered ∧
      (∃ le, (extractNewWhaleBuys "R"
          (some [⟨some "t", some 0, DictField.dict ⟨some "r", none⟩,
            DictField.dict ⟨some "u", some false⟩, RawValue.num (10 ^ 18), none⟩])
          none).getLast? = some le ∧
        (whalePoll true "R" true
          (some [⟨some "t", some 0, DictField.dict ⟨some "r", none⟩,
            DictField.dict ⟨some "u", some false⟩, RawValue.num (10 ^ 18), none⟩])
          none).newLastSeen = some le.unique_key) ∧
      extractNewWhaleBuys "R"
        (some [⟨some "t", some 0, DictField.dict ⟨some "r", none⟩,
          DictField.dict ⟨some "u", some false⟩, RawValue.num (10 ^ 18), none⟩])
        ((whalePoll true "R" true
          (some [⟨some "t", some 0, DictField.dict ⟨some "r", none⟩,
            DictField.dict ⟨some "u", some false⟩, RawValue.num (10 ^ 18), none⟩])
          none).newLastSeen) = []) :=
  ⟨⟨by decide,
      by rw [extractNewWhaleBuys_demo]; exact List.mem_singleton.mpr rfl,
      by rw [MINI_MIN]; norm_num⟩,
    claim_C5_threshold_exclusion "R"
      (some [⟨some "t", some 0, DictField.dict ⟨some "r", none⟩,
        DictField.dict ⟨some "u", some false⟩, RawValue.num (10 ^ 18), none⟩]) none
      ⟨"t:0", "t", "u", ((10 ^ 18 : ℤ) : ℚ) / (10 ^ 18 : ℚ), none⟩
      (by decide)
      (by rw [extractNewWhaleBuys_demo]; exact List.mem_singleton.mpr rfl)
      (by rw [MINI_MIN]; norm_num)⟩

end WChainBot
